import Mathlib

/-!
Shallow embedding of `cargo-lock-crate-vendor`
(`src/cargo_lock_crate_vendor/__main__.py`) and proofs about it.

Python strings are modelled as Lean `String`s (character slicing goes
through `String.data : List Char` where character-level reasoning is
needed).  Filesystem paths are modelled as lists of path segments
(`os.path.join root a b` with separator-free components becomes
`root ++ [a, b]`; `os.path.basename` / `os.path.dirname` become
`List.getLastD` / `List.dropLast`).  Python `set`s of crates are
modelled as duplicate-free lists built by `addCrate`.
-/

namespace CargoLockVendor

/-- The `Crate` dataclass of the source: a package name plus an exact
version, with structural equality and hashing. -/
structure Crate where
  name : String
  version : String
deriving DecidableEq, Repr

/-- The `Index` dataclass of the source: a package name plus the raw
index document text. -/
structure Index where
  name : String
  content : String
deriving DecidableEq, Repr

/-- One record of the `[[package]]` array of a `Cargo.lock` document, as
consumed by `parse_cargo_lock`: `name`, `version`, optional `source`, and
the list of dependency-spec strings. -/
structure LockPackage where
  name : String
  version : String
  source : Option String
  dependencies : List String
deriving DecidableEq, Repr

/-- Model of Python's `\s` character class on the ASCII range (the
characters the lock format can contain): space, tab, newline, carriage
return, vertical tab, form feed. -/
def pySpace (c : Char) : Bool :=
  c = ' ' || c = '\t' || c = '\n' || c = '\r' || c = '\x0b' || c = '\x0c'

/-- Semantics of `CRATE_RE.match(dep)` being truthy, where
`CRATE_RE = re.compile(r"[^\s]+(\s.+)*")`.  Python's `re.match` anchors
only at the start, so the pattern matches some prefix of `dep` iff the
leading `[^\s]+` can consume at least one character, i.e. iff `dep` is
non-empty and its first character is not whitespace (the starred group
may match zero times and the match need not reach the end). -/
def crateReMatch (dep : String) : Bool :=
  match dep.data with
  | [] => false
  | c :: _ => !pySpace c

/-- Model of Python's `str.split(" ")` (split on every single space
character; `"".split(" ") == [""]`, `"a ".split(" ") == ["a", ""]`). -/
def splitOnSpaceChar : List Char → List (List Char)
  | [] => [[]]
  | c :: rest =>
    if c = ' ' then [] :: splitOnSpaceChar rest
    else
      match splitOnSpaceChar rest with
      | [] => [[c]]
      | t :: ts => (c :: t) :: ts

/-- Python `str.startswith`: character-level prefix test. -/
def pyStartswith (s pre : String) : Bool :=
  pre.data.isPrefixOf s.data

/-- Python `set.add`: append the element unless it is already present. -/
def addCrate (l : List Crate) (c : Crate) : List Crate :=
  if c ∈ l then l else l ++ [c]

/-- Add every element of `new` into the crate set `acc`. -/
def addCrates (acc : List Crate) (new : List Crate) : List Crate :=
  new.foldl addCrate acc

/-- The body of the dependency loop of `parse_cargo_lock` for one
dependency-spec string `dep`: raise `ValueError` when `CRATE_RE` does not
match; otherwise split on `" "`, skip the entry when there is a single
part, and contribute `Crate(parts[0], parts[1])` when there are two or
more parts. -/
def depCrate (dep : String) : Except String (Option Crate) :=
  if crateReMatch dep then
    let parts := splitOnSpaceChar dep.data
    if parts.length == 1 then Except.ok Option.none
    else Except.ok (some ⟨String.mk (parts.headD []), String.mk (parts.getD 1 [])⟩)
  else Except.error ("crate regular expression does cover dependency syntax")

/-- Run `depCrate` over a dependency list, collecting the contributed
crates in order and propagating the first error. -/
def depsCrates : List String → Except String (List Crate)
  | [] => Except.ok []
  | d :: rest =>
    match depCrate d with
    | Except.error e => Except.error e
    | Except.ok Option.none => depsCrates rest
    | Except.ok (some c) =>
      match depsCrates rest with
      | Except.error e => Except.error e
      | Except.ok cs => Except.ok (c :: cs)

/-- The record loop of `parse_cargo_lock`, with the growing crate set as
accumulator: a record with an absent/empty `source` or a `source`
starting with `git+` is skipped; a surviving record adds its own
`{name, version}` and then every crate contributed by its dependency
strings. -/
def parseLockAux (acc : List Crate) : List LockPackage → Except String (List Crate)
  | [] => Except.ok acc
  | pkg :: rest =>
    let source := pkg.source.getD ""
    if source == "" || pyStartswith source ("git+") then parseLockAux acc rest
    else
      match depsCrates pkg.dependencies with
      | Except.error e => Except.error e
      | Except.ok deps =>
        parseLockAux (addCrates (addCrate acc ⟨pkg.name, pkg.version⟩) deps) rest

/-- `parse_cargo_lock`: parse the package records of a lock document into
the set of registry crates they pin (the document's TOML structure is
pre-decoded into `LockPackage` records). -/
def parse_cargo_lock (packages : List LockPackage) : Except String (List Crate) :=
  parseLockAux [] packages

/-- `get_directory`: the registry shard of a crate name.  Returns a single
directory (`str` in the source) for names of length at most 2, and a pair
of directories (a tuple in the source) otherwise. -/
def get_directory (crate_name : String) : Sum String (String × String) :=
  if crate_name.length ≤ 2 then Sum.inl (toString crate_name.length)
  else if crate_name.length = 3 then Sum.inr (toString crate_name.length, crate_name.take 1)
  else Sum.inr (crate_name.take 2, (crate_name.drop 2).take 2)

/-- The shard of a crate name viewed as a list of path segments (one
segment for the `str` result of `get_directory`, two for the tuple
result). -/
def shardSegments (crate_name : String) : List String :=
  match get_directory crate_name with
  | Sum.inl s => [s]
  | Sum.inr (a, b) => [a, b]

/-- `Index.dir`: the shard subpath an index document is stored under.
The source joins the two tuple components with the path separator; in the
segment model this is the segment list of the shard. -/
def Index.dir (i : Index) : List String :=
  shardSegments i.name

/-- A filesystem path, as a list of segments. -/
abbrev FsPath := List String

/-- The filesystem state visible to the program: a list of files, each a
path paired with its content (archive bytes are modelled as strings). -/
abbrev Fs := List (FsPath × String)

/-- Writing a file: `open(fpath, "w")` overwrites any existing file at
the same path. -/
def fsWrite (fs : Fs) (p : FsPath) (content : String) : Fs :=
  (p, content) :: fs.filter (fun e => !(e.1 == p))

/-- `save_crate`: write the archive bytes to
`output_dir/name/version/download` (`os.makedirs` is implicit in the
path model). -/
def save_crate (crate : Crate) (content : String) (output_dir : FsPath) (fs : Fs) : Fs :=
  fsWrite fs (output_dir ++ [crate.name, crate.version, "download"]) content

/-- `save_index`: write the index document text to
`output_dir/<shard>/<name>`. -/
def save_index (index : Index) (output_dir : FsPath) (fs : Fs) : Fs :=
  fsWrite fs (output_dir ++ index.dir ++ [index.name]) index.content

/-- The crate reconstructed from the path of a `download` file by
`get_downloaded_crates`: `name` is the basename of the grandparent
directory, `version` the basename of the parent directory. -/
def crateOfPath (p : FsPath) : Crate :=
  ⟨p.dropLast.dropLast.getLastD "", p.dropLast.getLastD ""⟩

/-- `get_downloaded_crates`: walk the output directory and reconstruct a
crate from every file named `download`. -/
def get_downloaded_crates (dir : FsPath) (fs : Fs) : List Crate :=
  fs.filterMap (fun e =>
    if dir.isPrefixOf e.1 && (e.1.getLastD "" == "download") then some (crateOfPath e.1)
    else none)

/-- `get_downloaded_indices`: walk the index output directory and build
an `Index` from every file, keyed by its filename, with the file's text
as content. -/
def get_downloaded_indices (dir : FsPath) (fs : Fs) : List Index :=
  fs.filterMap (fun e =>
    if dir.isPrefixOf e.1 then some (⟨e.1.getLastD "", e.2⟩ : Index) else none)

/-- One line of a registry index document.  The source consumes each line
as a JSON object of which only the `vers` field is read
(`json.loads(line)["vers"]`); the remaining fields are opaque. -/
structure IndexLine where
  vers : String
  extra : List (String × String)
deriving DecidableEq, Repr

/-- The tail-selection of `get_crate_versions`: of the document's lines
(already decoded into `IndexLine`s) keep `lines[max(len(lines) -
max_previous, 0):]` and read each kept line's `vers` field. -/
def get_crate_versions (lines : List IndexLine) (max_previous : Nat) : List String :=
  (lines.drop ((max ((lines.length : Int) - (max_previous : Int)) 0).toNat)).map
    (fun l => l.vers)

/-- Lexicographic order on character lists by code point — Python's
string `<`. -/
def listCharLT : List Char → List Char → Bool
  | [], [] => false
  | [], _ :: _ => true
  | _ :: _, [] => false
  | a :: as, b :: bs =>
    if a.toNat < b.toNat then true
    else if b.toNat < a.toNat then false
    else listCharLT as bs

/-- Python string `<` on the modelled strings. -/
def pyStringLT (a b : String) : Bool :=
  listCharLT a.data b.data

/-- The comparison key of `sorted(crates, key=lambda c: (c.name, c.version))`:
lexicographic on the (name, version) pair of strings. -/
def crateLE (a b : Crate) : Bool :=
  pyStringLT a.name b.name ||
    ((a.name == b.name) && (pyStringLT a.version b.version || a.version == b.version))

/-- Insert a crate into a list sorted by `crateLE`. -/
def insertSorted (c : Crate) : List Crate → List Crate
  | [] => [c]
  | x :: xs => if crateLE c x then c :: x :: xs else x :: insertSorted c xs

/-- `sorted(crates, key=lambda c: (c.name, c.version))`.  The key is the
whole crate, so on duplicate-free input any comparison sort produces the
same list; insertion sort is used for computability. -/
def sortCrates (l : List Crate) : List Crate :=
  l.foldr insertSorted []

/-- Python `set(...)` applied to a crate list: keep first occurrences. -/
def crateSetOf (l : List Crate) : List Crate :=
  l.foldl addCrate []

/-- The external registry, as the pure capability surface the core calls:
raw index text by crate name (network GET or mirror file read, depending
on configuration — both return the document text), decoded index lines by
crate name, and archive bytes by crate. -/
structure Registry where
  rawIndex : String → String
  indexLines : String → List IndexLine
  archive : Crate → String

/-- The version-expansion policy: the `--all` flag, the `--max-previous n`
option, or neither. -/
inductive ExpandPolicy where
  | noExpansion
  | allVersions
  | lastN (n : Nat)
deriving DecidableEq, Repr

/-- The `max_previous` bound the expansion branch runs with: `--all`
uses `2 ** 16`; `--max-previous n` uses `n`, except that `n = 0` is falsy
in `if cfg.get("all") or cfg.get("max_previous")` and disables expansion. -/
def policyBound : ExpandPolicy → Option Nat
  | ExpandPolicy.noExpansion => Option.none
  | ExpandPolicy.allVersions => some (2 ^ 16)
  | ExpandPolicy.lastN n => if n = 0 then Option.none else some n

/-- The index-fetch loop of `async_main`: for each crate whose name has
no entry in the `downloaded_indices` set scanned at the start of the run,
fetch its index and persist it; record the fetched names in order.  The
skip test reads only the initial `downloaded_indices`, never the files
persisted during the loop. -/
def indexLoop (downloadedIdx : List Index) (raw : String → String)
    (output_dir : FsPath) : List Crate → Fs → List String × Fs
  | [], fs => ([], fs)
  | c :: rest, fs =>
    if downloadedIdx.any (fun i => i.name == c.name) then
      indexLoop downloadedIdx raw output_dir rest fs
    else
      let index : Index := ⟨c.name, raw c.name⟩
      let r := indexLoop downloadedIdx raw output_dir rest (save_index index output_dir fs)
      (c.name :: r.1, r.2)

/-- The version-expansion loop of `async_main`: for each crate call
`get_crate_versions` on its name and synthesize a crate per returned
version.  Returns the names called (in order) and the synthesized crates
(in order, before set-deduplication). -/
def versionLoop (lines : String → List IndexLine) (max_previous : Nat) :
    List Crate → List String × List Crate
  | [] => ([], [])
  | c :: rest =>
    let vers := get_crate_versions (lines c.name) max_previous
    let r := versionLoop lines max_previous rest
    (c.name :: r.1, vers.map (fun v => (⟨c.name, v⟩ : Crate)) ++ r.2)

/-- The archive-fetch loop of `async_main`: for each crate already in the
`downloaded_crates` set scanned at the start of the run, print the
already-downloaded notice and skip; otherwise fetch the archive and
persist it.  Returns (fetched crates, already-downloaded notices, final
filesystem). -/
def crateLoop (downloaded : List Crate) (arch : Crate → String)
    (output_dir : FsPath) : List Crate → Fs → List Crate × List Crate × Fs
  | [], fs => ([], [], fs)
  | c :: rest, fs =>
    if c ∈ downloaded then
      let r := crateLoop downloaded arch output_dir rest fs
      (r.1, c :: r.2.1, r.2.2)
    else
      let r := crateLoop downloaded arch output_dir rest (save_crate c (arch c) output_dir fs)
      (c :: r.1, r.2.1, r.2.2)

/-- The final, sorted target list of a run: the sorted wanted set, plus —
when expansion is active — every crate synthesized by the version loop,
the union taken with set semantics and re-sorted. -/
def syncTargets (lines : String → List IndexLine) (wanted : List Crate)
    (policy : ExpandPolicy) : List Crate :=
  let base := sortCrates (crateSetOf wanted)
  match policyBound policy with
  | Option.none => sortCrates base
  | some mp => sortCrates (crateSetOf (base ++ (versionLoop lines mp base).2))

/-- The names `get_crate_versions` is called on during a run: every crate
of the sorted wanted set when expansion is active, none otherwise. -/
def syncVersionCalls (lines : String → List IndexLine) (wanted : List Crate)
    (policy : ExpandPolicy) : List String :=
  match policyBound policy with
  | Option.none => []
  | some mp => (versionLoop lines mp (sortCrates (crateSetOf wanted))).1

/-- The observable outcome of one run of `async_main`'s core. -/
structure SyncResult where
  indexFetches : List String
  versionCalls : List String
  archiveFetches : List Crate
  alreadyNotices : List Crate
  crateFs : Fs
  indexFs : Fs
deriving DecidableEq, Repr

/-- The resolution-and-sync core of `async_main`: scan both caches, sort
the wanted set, run the index-fetch loop against the scanned index set,
optionally expand the wanted set through the version loop, re-sort, and
run the archive-fetch loop against the scanned crate set. -/
def runSync (reg : Registry) (wanted : List Crate) (policy : ExpandPolicy)
    (output_dir index_output_dir : FsPath) (cfs ifs : Fs) : SyncResult :=
  let downloaded := get_downloaded_crates output_dir cfs
  let downloadedIdx := get_downloaded_indices index_output_dir ifs
  let base := sortCrates (crateSetOf wanted)
  let ir := indexLoop downloadedIdx reg.rawIndex index_output_dir base ifs
  let targets := syncTargets reg.indexLines wanted policy
  let cr := crateLoop downloaded reg.archive output_dir targets cfs
  { indexFetches := ir.1
    versionCalls := syncVersionCalls reg.indexLines wanted policy
    archiveFetches := cr.1
    alreadyNotices := cr.2.1
    crateFs := cr.2.2
    indexFs := ir.2 }

/-- Modelled from the spec (§4.1/§8): the full-match reading of the
dependency-spec shape "one non-whitespace token optionally followed by
whitespace and more content" — a non-empty leading non-whitespace token,
after which either nothing remains or the remainder is a whitespace
character followed by at least one more character. -/
def specShapeFullMatch (d : String) : Bool :=
  let t := d.data.takeWhile (fun c => !pySpace c)
  let r := d.data.dropWhile (fun c => !pySpace c)
  !t.isEmpty && (r.isEmpty || 2 ≤ r.length)

/-- A concrete five-line index document for `foo`, versions
`0.1.0` … `0.5.0` in publication (document) order. -/
def fiveLines : List IndexLine :=
  [⟨"0.1.0", []⟩, ⟨"0.2.0", []⟩, ⟨"0.3.0", []⟩, ⟨"0.4.0", []⟩, ⟨"0.5.0", []⟩]

/-- C1: the shard-path function is pure and deterministic; for a
non-empty name it yields `[len]` for length 1 or 2, `[len, firstChar]`
for length exactly 3, and `[chars 0-1, chars 2-3]` for length at least 4;
in particular the five listed examples hold. -/
theorem get_directory_cases (s : String) (_h : s ≠ "") :
    ((s.length = 1 ∨ s.length = 2) → shardSegments s = [toString s.length]) ∧
    (s.length = 3 → shardSegments s = [toString s.length, s.take 1]) ∧
    (4 ≤ s.length → shardSegments s = [s.take 2, (s.drop 2).take 2]) ∧
    shardSegments ("a") = ["1"] ∧ shardSegments ("ab") = ["2"] ∧
    shardSegments ("abc") = ["3", "a"] ∧ shardSegments ("abcd") = ["ab", "cd"] ∧
    shardSegments ("serde") = ["se", "rd"] := by
  refine ⟨?_, ?_, ?_, by decide, by decide, by decide, by decide, by decide⟩
  · intro h12
    have h2 : s.length ≤ 2 := by omega
    simp [shardSegments, get_directory, h2]
  · intro h3
    have hn2 : ¬s.length ≤ 2 := by omega
    simp [shardSegments, get_directory, hn2, h3]
  · intro h4
    have hn2 : ¬s.length ≤ 2 := by omega
    have hn3 : ¬s.length = 3 := by omega
    simp [shardSegments, get_directory, hn2, hn3]

/-- Witness for `get_directory_cases` at the concrete name `abc`. -/
theorem get_directory_cases_witness :
    ("abc" : String) ≠ "" ∧ shardSegments ("abc") = ["3", "a"] :=
  ⟨by decide, (get_directory_cases ("abc") (by decide)).2.2.2.2.2.1⟩

/-- C8 counterexample: applied to the empty name, `get_directory` does
not fail — it returns the single directory `"0"`. -/
theorem get_directory_empty_cex : get_directory ("") = Sum.inl ("0") := by
  decide

/-- C8 amended: the shard path of the empty name is the single segment
`"0"` (the decimal string of the length 0); no error is raised. -/
theorem get_directory_empty_returns_zero : shardSegments ("") = ["0"] := by
  decide

/-- C5: for every index document and positive `max_previous`,
`get_crate_versions` returns the `vers` fields of the last
`min(max_previous, length)` lines in document order; in particular a
`LastN(2)` expansion over a five-line index for `foo` synthesizes exactly
the two crates of the last two lines, in document order. -/
theorem crate_versions_tail (lines : List IndexLine) (n : Nat) (h : 0 < n) :
    get_crate_versions lines n = (lines.reverse.take n).reverse.map (fun l => l.vers) ∧
    (get_crate_versions lines n).length = min n lines.length ∧
    versionLoop (fun _ => fiveLines) 2 [⟨"foo", "9.9.9"⟩] =
      (["foo"], [⟨"foo", "0.4.0"⟩, ⟨"foo", "0.5.0"⟩]) := by
  have hstart : (max ((lines.length : Int) - (n : Int)) 0).toNat = lines.length - n := by
    rcases le_total ((lines.length : Int) - (n : Int)) 0 with h0 | h0
    · rw [max_eq_right h0]; omega
    · rw [max_eq_left h0]; omega
  have hd : lines.drop (lines.length - n) = (lines.reverse.take n).reverse :=
    List.rtake_eq_reverse_take_reverse lines n
  refine ⟨?_, ?_, by decide⟩
  · rw [get_crate_versions, hstart, hd]
  · rw [get_crate_versions, hstart]
    simp only [List.length_map, List.length_drop]
    omega

/-- Witness for `crate_versions_tail` at the five-line document and
`max_previous = 2`. -/
theorem crate_versions_tail_witness :
    0 < 2 ∧
      get_crate_versions fiveLines 2 =
        (fiveLines.reverse.take 2).reverse.map (fun l => l.vers) :=
  ⟨by decide, (crate_versions_tail fiveLines 2 (by decide)).1⟩

theorem ne_space_of_pySpace_false {c : Char} (h : pySpace c = false) : ¬c = ' ' := by
  intro hc
  rw [hc] at h
  simp [pySpace] at h

theorem splitOnSpaceChar_no_space (l : List Char) (h : ∀ c ∈ l, ¬c = ' ') :
    splitOnSpaceChar l = [l] := by
  induction l with
  | nil => rfl
  | cons c t ih =>
    have hc : ¬c = ' ' := h c (List.mem_cons_self c t)
    have ht := ih (fun x hx => h x (List.mem_cons_of_mem c hx))
    simp [splitOnSpaceChar, hc, ht]

theorem splitOnSpaceChar_append_space (n v : List Char) (h : ∀ c ∈ n, ¬c = ' ') :
    splitOnSpaceChar (n ++ ' ' :: v) = n :: splitOnSpaceChar v := by
  induction n with
  | nil => simp [splitOnSpaceChar]
  | cons c t ih =>
    have hc : ¬c = ' ' := h c (List.mem_cons_self c t)
    have ht := ih (fun x hx => h x (List.mem_cons_of_mem c hx))
    simp [splitOnSpaceChar, hc, ht]

theorem depCrate_token (n : String) (h1 : n.data ≠ [])
    (h2 : ∀ c ∈ n.data, pySpace c = false) :
    depCrate n = Except.ok Option.none := by
  have hsplit : splitOnSpaceChar n.data = [n.data] :=
    splitOnSpaceChar_no_space n.data (fun c hc => ne_space_of_pySpace_false (h2 c hc))
  have hmatch : crateReMatch n = true := by
    cases hd : n.data with
    | nil => exact absurd hd h1
    | cons c t =>
      have hc := h2 c (by rw [hd]; exact List.mem_cons_self c t)
      simp [crateReMatch, hd, hc]
  simp [depCrate, hmatch, hsplit]

theorem depCrate_pair (n v : String) (h1 : n.data ≠ [])
    (h2 : ∀ c ∈ n.data, pySpace c = false)
    (h3 : ∀ c ∈ v.data, ¬c = ' ') :
    depCrate (n ++ " " ++ v) = Except.ok (some ⟨n, v⟩) := by
  have hsp : (" " : String).data = [' '] := rfl
  have hdata : (n ++ " " ++ v).data = n.data ++ ' ' :: v.data := by
    simp [String.data_append, hsp]
  have hsplit2 : splitOnSpaceChar (n.data ++ ' ' :: v.data) = [n.data, v.data] := by
    rw [splitOnSpaceChar_append_space n.data v.data
        (fun c hc => ne_space_of_pySpace_false (h2 c hc)),
      splitOnSpaceChar_no_space v.data h3]
  have hmatch : crateReMatch (n ++ " " ++ v) = true := by
    cases hd : n.data with
    | nil => exact absurd hd h1
    | cons c t =>
      have hc := h2 c (by rw [hd]; exact List.mem_cons_self c t)
      have hcns : (n ++ " " ++ v).data = c :: (t ++ ' ' :: v.data) := by
        rw [hdata, hd]; rfl
      simp [crateReMatch, hcns, hc]
  simp [depCrate, hmatch, hdata, hsplit2]

theorem addCrate_nil (c : Crate) : addCrate [] c = [c] := by
  simp [addCrate]

/-- Reduction of the record loop at a surviving (registry-sourced)
record. -/
theorem parseLockAux_registry_cons (acc : List Crate) (pn pv : String)
    (deps : List String) (rest : List LockPackage) :
    parseLockAux acc (⟨pn, pv, some ("registry+x"), deps⟩ :: rest) =
      match depsCrates deps with
      | Except.error e => Except.error e
      | Except.ok cs => parseLockAux (addCrates (addCrate acc ⟨pn, pv⟩) cs) rest := by
  have h1 : ((("registry+x" : String)) == "") = false := by decide
  have h2 : pyStartswith ("registry+x") ("git+") = false := by decide
  simp [parseLockAux, h1, h2]

/-- C6: in a surviving record, a single-token dependency spec contributes
no crate, and a spec `name ++ " " ++ version` contributes exactly the
crate `{name, version}`. -/
theorem lock_dep_contribution (pn pv n v : String) (h1 : n.data ≠ [])
    (h2 : ∀ c ∈ n.data, pySpace c = false)
    (h3 : ∀ c ∈ v.data, pySpace c = false) :
    parse_cargo_lock [⟨pn, pv, some ("registry+x"), [n]⟩] = Except.ok [⟨pn, pv⟩] ∧
    parse_cargo_lock [⟨pn, pv, some ("registry+x"), [n ++ " " ++ v]⟩] =
      Except.ok (addCrate [⟨pn, pv⟩] ⟨n, v⟩) := by
  constructor
  · rw [parse_cargo_lock, parseLockAux_registry_cons]
    simp [depsCrates, depCrate_token n h1 h2, parseLockAux, addCrates, addCrate_nil]
  · rw [parse_cargo_lock, parseLockAux_registry_cons]
    simp [depsCrates,
      depCrate_pair n v h1 h2 (fun c hc => ne_space_of_pySpace_false (h3 c hc)),
      parseLockAux, addCrates, addCrate_nil]

/-- Witness for `lock_dep_contribution` at `serde 1.2.3`. -/
theorem lock_dep_contribution_witness :
    ("serde" : String).data ≠ [] ∧
      parse_cargo_lock [⟨"p", "1", some ("registry+x"), ["serde" ++ " " ++ "1.2.3"]⟩] =
        Except.ok (addCrate [⟨"p", "1"⟩] ⟨"serde", "1.2.3"⟩) :=
  ⟨by decide,
    (lock_dep_contribution "p" "1" "serde" "1.2.3" (by decide) (by decide) (by decide)).2⟩

/-- C9: a dependency spec `name ++ " "` (trailing space, nothing after)
is not a parse error and contributes the crate `{name, ""}` with empty
version. -/
theorem dep_trailing_space_contributes (pn pv n : String) (h1 : n.data ≠ [])
    (h2 : ∀ c ∈ n.data, pySpace c = false) :
    parse_cargo_lock [⟨pn, pv, some ("registry+x"), [n ++ " "]⟩] =
      Except.ok (addCrate [⟨pn, pv⟩] ⟨n, ""⟩) := by
  have hdc : depCrate (n ++ " ") = Except.ok (some ⟨n, ""⟩) := by
    have hemp : ∀ c ∈ ("" : String).data, ¬c = ' ' := by
      intro c hc
      rw [show ("" : String).data = [] from rfl] at hc
      exact absurd hc (List.not_mem_nil c)
    have h := depCrate_pair n "" h1 h2 hemp
    have he : (n ++ " " ++ "" : String) = n ++ " " := by
      apply String.ext
      simp [String.data_append, show ("" : String).data = [] from rfl]
    rw [he] at h
    exact h
  rw [parse_cargo_lock, parseLockAux_registry_cons]
  simp [depsCrates, hdc, parseLockAux, addCrates, addCrate_nil]

/-- Witness for `dep_trailing_space_contributes` at `serde `. -/
theorem dep_trailing_space_contributes_witness :
    ("serde" : String).data ≠ [] ∧
      parse_cargo_lock [⟨"p", "1", some ("registry+x"), ["serde" ++ " "]⟩] =
        Except.ok (addCrate [⟨"p", "1"⟩] ⟨"serde", ""⟩) :=
  ⟨by decide, dep_trailing_space_contributes "p" "1" "serde" (by decide) (by decide)⟩

theorem crateReMatch_false_iff (d : String) :
    crateReMatch d = false ↔
      (d.data = [] ∨ ∃ c t, d.data = c :: t ∧ pySpace c = true) := by
  cases hd : d.data with
  | nil => simp [crateReMatch, hd]
  | cons c t => simp [crateReMatch, hd]

theorem depCrate_ok_of_match (d : String) (hm : crateReMatch d = true) :
    ∃ r, depCrate d = Except.ok r := by
  simp only [depCrate, hm, if_true]
  split
  · exact ⟨Option.none, rfl⟩
  · exact ⟨_, rfl⟩

/-- C7 counterexample: the dependency spec `"a "` (trailing space) does
not match the spec's full shape "one non-whitespace token optionally
followed by whitespace and more content", yet the parser accepts it
without error (and contributes `{a, ""}`). -/
theorem dep_shape_mismatch_cex :
    specShapeFullMatch ("a ") = false ∧
      parse_cargo_lock [⟨"p", "1", some ("registry+x"), ["a "]⟩] =
        Except.ok [⟨"p", "1"⟩, ⟨"a", ""⟩] := by
  constructor
  · decide
  · rfl

/-- C7 amended: the malformed-dependency-spec error is raised exactly for
dependency specs that are empty or whose first character is whitespace
(`re.match` only anchors at the start, so one leading non-whitespace
character suffices to avoid the error). -/
theorem lock_parse_error_iff (pn pv d : String) :
    (∃ e, parse_cargo_lock [⟨pn, pv, some ("registry+x"), [d]⟩] = Except.error e) ↔
      (d.data = [] ∨ ∃ c t, d.data = c :: t ∧ pySpace c = true) := by
  rw [parse_cargo_lock, parseLockAux_registry_cons]
  cases hm : crateReMatch d with
  | false =>
    have hdep : depCrate d =
        Except.error ("crate regular expression does cover dependency syntax") := by
      simp [depCrate, hm]
    constructor
    · intro _
      exact (crateReMatch_false_iff d).mp hm
    · intro _
      refine ⟨"crate regular expression does cover dependency syntax", ?_⟩
      simp [depsCrates, hdep]
  | true =>
    constructor
    · rintro ⟨e, he⟩
      obtain ⟨r, hr⟩ := depCrate_ok_of_match d hm
      cases r with
      | none => simp [depsCrates, hr, parseLockAux] at he
      | some c => simp [depsCrates, hr, parseLockAux] at he
    · intro hr
      have := (crateReMatch_false_iff d).mpr hr
      rw [hm] at this
      exact absurd this (by decide)

theorem crateOfPath_save (dir : FsPath) (n v : String) :
    crateOfPath (dir ++ [n, v, "download"]) = ⟨n, v⟩ := by
  have h1 : dir ++ [n, v, "download"] = (dir ++ [n, v]) ++ ["download"] := by simp
  have h2 : dir ++ [n, v] = (dir ++ [n]) ++ [v] := by simp
  rw [crateOfPath, h1, List.dropLast_concat, h2, List.dropLast_concat]
  rw [List.getLastD_concat, List.getLastD_concat]

/-- The crate just persisted by `save_crate` is found by the archive
scan of the same root. -/
theorem self_mem_scan_save (crate : Crate) (content : String) (dir : FsPath) (fs : Fs) :
    crate ∈ get_downloaded_crates dir (save_crate crate content dir fs) := by
  rw [get_downloaded_crates, List.mem_filterMap]
  refine ⟨(dir ++ [crate.name, crate.version, "download"], content),
    List.mem_cons_self .., ?_⟩
  have hpre : dir.isPrefixOf (dir ++ [crate.name, crate.version, "download"]) = true :=
    List.isPrefixOf_iff_prefix.mpr (List.prefix_append dir _)
  have hlast : (dir ++ [crate.name, crate.version, "download"]).getLastD "" = "download" := by
    rw [show dir ++ [crate.name, crate.version, "download"] =
      (dir ++ [crate.name, crate.version]) ++ ["download"] by simp]
    exact List.getLastD_concat ..
  simp [hpre, hlast, crateOfPath_save]

/-- Overwriting any file preserves membership in the archive scan: the
scan's reconstruction depends only on file paths, and a write either
keeps a path or replaces it with itself. -/
theorem scan_fsWrite_mono {c : Crate} {dir : FsPath} {fs : Fs} (p : FsPath) (content : String)
    (h : c ∈ get_downloaded_crates dir fs) :
    c ∈ get_downloaded_crates dir (fsWrite fs p content) := by
  rw [get_downloaded_crates, List.mem_filterMap] at h
  obtain ⟨e, he, hfe⟩ := h
  rw [get_downloaded_crates, List.mem_filterMap]
  by_cases hp : e.1 = p
  · refine ⟨(p, content), List.mem_cons_self .., ?_⟩
    show (if dir.isPrefixOf p && (p.getLastD "" == "download") then some (crateOfPath p)
      else none) = some c
    rw [← hp]
    exact hfe
  · refine ⟨e, ?_, hfe⟩
    apply List.mem_cons_of_mem
    rw [List.mem_filter]
    exact ⟨he, by simp [hp]⟩

/-- C3: a crate persisted by `save_crate` (separator-free name and
version) is discoverable by the archive scan with identical name and
version. -/
theorem save_crate_roundtrip (crate : Crate) (content : String) (root : FsPath) (fs : Fs)
    (_h1 : '/' ∉ crate.name.data) (_h2 : '/' ∉ crate.version.data) :
    ∃ c ∈ get_downloaded_crates root (save_crate crate content root fs),
      c.name = crate.name ∧ c.version = crate.version :=
  ⟨crate, self_mem_scan_save crate content root fs, rfl, rfl⟩

/-- Witness for `save_crate_roundtrip` at `serde 1.0.0` under root
`crates` on the empty filesystem. -/
theorem save_crate_roundtrip_witness :
    ('/' ∉ ("serde" : String).data ∧ '/' ∉ ("1.0.0" : String).data) ∧
      ∃ c ∈ get_downloaded_crates ["crates"]
          (save_crate ⟨"serde", "1.0.0"⟩ "bytes" ["crates"] []),
        c.name = "serde" ∧ c.version = "1.0.0" :=
  ⟨⟨by decide, by decide⟩,
    save_crate_roundtrip ⟨"serde", "1.0.0"⟩ "bytes" ["crates"] [] (by decide) (by decide)⟩

theorem crateLoop_fs_mono {c : Crate} {dir : FsPath} (d : List Crate) (arch : Crate → String)
    (cs : List Crate) (fs : Fs) (h : c ∈ get_downloaded_crates dir fs) :
    c ∈ get_downloaded_crates dir (crateLoop d arch dir cs fs).2.2 := by
  induction cs generalizing fs with
  | nil => simpa [crateLoop] using h
  | cons x rest ih =>
    by_cases hx : x ∈ d
    · simp only [crateLoop, if_pos hx]
      exact ih fs h
    · simp only [crateLoop, if_neg hx]
      exact ih _ (scan_fsWrite_mono _ _ h)

/-- After the archive-fetch loop, every processed crate is present in a
fresh archive scan — whether it was already cached or fetched and saved
during the loop. -/
theorem crateLoop_covers {dir : FsPath} (d : List Crate) (arch : Crate → String)
    (cs : List Crate) (fs : Fs) (hd : ∀ x ∈ d, x ∈ get_downloaded_crates dir fs) :
    ∀ c ∈ cs, c ∈ get_downloaded_crates dir (crateLoop d arch dir cs fs).2.2 := by
  induction cs generalizing fs with
  | nil => intro c hc; exact absurd hc (List.not_mem_nil c)
  | cons x rest ih =>
    intro c hc
    by_cases hx : x ∈ d
    · simp only [crateLoop, if_pos hx]
      rcases List.mem_cons.mp hc with rfl | hcr
      · exact crateLoop_fs_mono d arch rest fs (hd c hx)
      · exact ih fs hd c hcr
    · simp only [crateLoop, if_neg hx]
      have hsave : ∀ y ∈ d, y ∈ get_downloaded_crates dir (save_crate x (arch x) dir fs) :=
        fun y hy => scan_fsWrite_mono _ _ (hd y hy)
      rcases List.mem_cons.mp hc with rfl | hcr
      · exact crateLoop_fs_mono d arch rest _ (self_mem_scan_save c (arch c) dir fs)
      · exact ih _ hsave c hcr

/-- When every processed crate is already in the downloaded set, the
archive-fetch loop fetches nothing, reports every crate as already
downloaded, and leaves the filesystem unchanged. -/
theorem crateLoop_all_skip (d : List Crate) (arch : Crate → String) (dir : FsPath)
    (cs : List Crate) (fs : Fs) (h : ∀ c ∈ cs, c ∈ d) :
    crateLoop d arch dir cs fs = ([], cs, fs) := by
  induction cs with
  | nil => rfl
  | cons x rest ih =>
    have hx : x ∈ d := h x (List.mem_cons_self ..)
    have hr := ih (fun c hc => h c (List.mem_cons_of_mem x hc))
    simp [crateLoop, if_pos hx, hr]

/-- C4: running the sync twice in a row with no cache mutation in
between makes the second run fetch zero archives and report every
target crate of the run as already downloaded. -/
theorem sync_idempotent (reg : Registry) (wanted : List Crate) (policy : ExpandPolicy)
    (odir idir : FsPath) (cfs ifs : Fs) :
    (runSync reg wanted policy odir idir
        (runSync reg wanted policy odir idir cfs ifs).crateFs
        (runSync reg wanted policy odir idir cfs ifs).indexFs).archiveFetches = [] ∧
    (runSync reg wanted policy odir idir
        (runSync reg wanted policy odir idir cfs ifs).crateFs
        (runSync reg wanted policy odir idir cfs ifs).indexFs).alreadyNotices =
      syncTargets reg.indexLines wanted policy := by
  have hcov : ∀ c ∈ syncTargets reg.indexLines wanted policy,
      c ∈ get_downloaded_crates odir (runSync reg wanted policy odir idir cfs ifs).crateFs :=
    crateLoop_covers (get_downloaded_crates odir cfs) reg.archive
      (syncTargets reg.indexLines wanted policy) cfs (fun _ hx => hx)
  have hskip := crateLoop_all_skip
    (get_downloaded_crates odir (runSync reg wanted policy odir idir cfs ifs).crateFs)
    reg.archive odir (syncTargets reg.indexLines wanted policy)
    (runSync reg wanted policy odir idir cfs ifs).crateFs hcov
  constructor
  · show (crateLoop
      (get_downloaded_crates odir (runSync reg wanted policy odir idir cfs ifs).crateFs)
      reg.archive odir (syncTargets reg.indexLines wanted policy)
      (runSync reg wanted policy odir idir cfs ifs).crateFs).1 = []
    rw [hskip]
  · show (crateLoop
      (get_downloaded_crates odir (runSync reg wanted policy odir idir cfs ifs).crateFs)
      reg.archive odir (syncTargets reg.indexLines wanted policy)
      (runSync reg wanted policy odir idir cfs ifs).crateFs).2.1 =
      syncTargets reg.indexLines wanted policy
    rw [hskip]

/-- The index-fetch loop fetches the name of a crate exactly as often as
crates with that name occur among the processed crates, as long as the
initially scanned index set has no entry for that name — the skip test
never consults the indices persisted during the loop. -/
theorem indexLoop_fetch_count (d : List Index) (raw : String → String) (root : FsPath)
    (cs : List Crate) (fs : Fs) (nm : String) (hd : ∀ i ∈ d, i.name ≠ nm) :
    (indexLoop d raw root cs fs).1.count nm =
      (cs.filter (fun c => c.name == nm)).length := by
  induction cs generalizing fs with
  | nil => simp [indexLoop]
  | cons x rest ih =>
    by_cases hx : d.any (fun i => i.name == x.name) = true
    · obtain ⟨i, hi, hieq⟩ := List.any_eq_true.mp hx
      have hxnm : ¬x.name == nm := by
        intro hcon
        exact hd i hi (by rw [eq_of_beq hieq, eq_of_beq hcon])
      simp only [indexLoop, if_pos hx]
      rw [ih fs]
      simp [List.filter_cons, hxnm]
    · simp only [indexLoop, if_neg hx]
      rw [List.count_cons, ih (save_index ⟨x.name, raw x.name⟩ root fs)]
      by_cases hxe : x.name = nm
      · simp [List.filter_cons, hxe]
      · simp [List.filter_cons, hxe]

/-- C10: if `k ≥ 2` wanted crates share one name that has no entry in the
initially scanned index set, the index for that name is fetched `k`
times during the run — once per wanted crate, not once per distinct
name. -/
theorem index_refetch_per_crate (reg : Registry) (wanted : List Crate)
    (policy : ExpandPolicy) (odir idir : FsPath) (cfs ifs : Fs) (nm : String) (k : Nat)
    (_hk : 2 ≤ k)
    (hwanted : ((sortCrates (crateSetOf wanted)).filter (fun c => c.name == nm)).length = k)
    (hidx : ∀ i ∈ get_downloaded_indices idir ifs, i.name ≠ nm) :
    (runSync reg wanted policy odir idir cfs ifs).indexFetches.count nm = k := by
  have h := indexLoop_fetch_count (get_downloaded_indices idir ifs) reg.rawIndex idir
    (sortCrates (crateSetOf wanted)) ifs nm hidx
  have hgoal : (runSync reg wanted policy odir idir cfs ifs).indexFetches =
      (indexLoop (get_downloaded_indices idir ifs) reg.rawIndex idir
        (sortCrates (crateSetOf wanted)) ifs).1 := rfl
  rw [hgoal, h, hwanted]

/-- A registry oracle for the concrete end-to-end scenarios. -/
def fooRegistry : Registry :=
  { rawIndex := fun _ => "foo-index-line"
    indexLines := fun _ => [⟨"1.0.0", []⟩]
    archive := fun _ => "foo-crate-bytes" }

/-- A lock document listing exactly one package `foo` v1.0.0 with a
registry source and no dependencies. -/
def fooLockDoc : List LockPackage :=
  [⟨"foo", "1.0.0", some ("registry+https://github.com/rust-lang/crates.io-index"), []⟩]

/-- Witness for `index_refetch_per_crate`: two wanted versions of `foo`
against an empty index cache fetch the `foo` index twice. -/
theorem index_refetch_per_crate_witness :
    (2 ≤ 2 ∧
      ((sortCrates (crateSetOf [(⟨"foo", "1.0.0"⟩ : Crate), ⟨"foo", "2.0.0"⟩])).filter
        (fun c => c.name == "foo")).length = 2 ∧
      (∀ i ∈ get_downloaded_indices ["index"] ([] : Fs), i.name ≠ "foo")) ∧
    (runSync fooRegistry [⟨"foo", "1.0.0"⟩, ⟨"foo", "2.0.0"⟩] ExpandPolicy.noExpansion
      ["crates"] ["index"] [] []).indexFetches.count "foo" = 2 :=
  ⟨⟨by decide, by decide, by decide⟩,
    index_refetch_per_crate fooRegistry [⟨"foo", "1.0.0"⟩, ⟨"foo", "2.0.0"⟩]
      ExpandPolicy.noExpansion ["crates"] ["index"] [] [] "foo" 2
      (by decide) (by decide) (by decide)⟩

/-- C2 counterexample: in the single-`foo` scenario the final index
cache does NOT contain a file at `indexRoot/1/foo` — `foo` has length 3,
so its index is persisted under the `3/f` shard. -/
theorem sync_single_foo_cex :
    parse_cargo_lock fooLockDoc = Except.ok [⟨"foo", "1.0.0"⟩] ∧
    ((runSync fooRegistry [⟨"foo", "1.0.0"⟩] ExpandPolicy.noExpansion
        ["crates"] ["index"] [] []).indexFs.all
      (fun e => !(e.1 == ["index", "1", "foo"]))) = true := by
  constructor
  · rfl
  · rfl

/-- C2 amended: the single-`foo` scenario issues exactly one index fetch,
zero version-expansion calls and one archive fetch, and leaves the index
document at `indexRoot/3/f/foo` and the archive at
`archiveRoot/foo/1.0.0/download`. -/
theorem sync_single_foo_scenario :
    parse_cargo_lock fooLockDoc = Except.ok [⟨"foo", "1.0.0"⟩] ∧
    runSync fooRegistry [⟨"foo", "1.0.0"⟩] ExpandPolicy.noExpansion
        ["crates"] ["index"] [] [] =
      { indexFetches := ["foo"]
        versionCalls := []
        archiveFetches := [⟨"foo", "1.0.0"⟩]
        alreadyNotices := []
        crateFs := [(["crates", "foo", "1.0.0", "download"], "foo-crate-bytes")]
        indexFs := [(["index", "3", "f", "foo"], "foo-index-line")] } := by
  constructor
  · rfl
  · decide

end CargoLockVendor
